import Mathlib

/-!
# Verification of the F1 strategy race-simulation engine

Shallow embedding of `src/backend/simulation/engine.py` (class
`RaceSimulator`) and of the `/simulate` boundary of `src/backend/main.py`,
together with proofs about the specification's claims.

Modelling conventions:

* Times (Python floats holding exact decimal constants) are modelled as
  exact rationals `ℚ`; lap counts, tire ages and positions (Python ints)
  as `ℤ`; the draw counter as `ℕ`.
* The process-wide pseudo-random generator (`random`) is modelled as an
  abstract draw source `Gen`.  A single draw counter is threaded through
  the computation; each call site reads the generator's output at the
  current counter position, interpreted as the kind of draw performed
  there (`random.uniform(-0.3, 0.3)`, `random.random()`,
  `random.randint(lo, hi)`).  `Gen.WF` states the range guarantees that
  Python's `random` module provides for those calls.
* Python exceptions are modelled with `Except`: `keyError` is the
  `KeyError` raised on an unknown tire compound, `valueError` the
  `ValueError` raised by `random.randint` on an empty range.  The
  recursive scenario evaluation carries an explicit fuel parameter;
  `fuelOut` marks fuel exhaustion (the termination theorem shows it is
  unreachable for well-formed draws and enough fuel).
-/

/-- Abstract pseudo-random draw source: output of the shared generator at
each draw position, by the kind of draw made there. -/
structure Gen where
  uniform : ℕ → ℚ
  unit : ℕ → ℚ
  randintF : ℕ → ℤ → ℤ → ℤ

/-- Range guarantees of Python's `random.uniform(-0.3, 0.3)`,
`random.random()` and `random.randint(lo, hi)` (the latter on a non-empty
range; on an empty range Python raises instead of drawing). -/
def Gen.WF (g : Gen) : Prop :=
  (∀ n, -(3 / 10 : ℚ) ≤ g.uniform n ∧ g.uniform n ≤ 3 / 10) ∧
  (∀ n, (0 : ℚ) ≤ g.unit n ∧ g.unit n < 1) ∧
  (∀ n lo hi, lo ≤ hi → lo ≤ g.randintF n lo hi ∧ g.randintF n lo hi ≤ hi)

/-- Python exceptions that the engine can raise, plus fuel exhaustion of
the embedded recursion. -/
inductive EvalError where
  | keyError
  | valueError
  | fuelOut
deriving DecidableEq

/-- One entry of `RaceSimulator.tire_compounds` (engine.py lines 10-16). -/
structure CompoundData where
  base_pace : ℚ
  deg_rate : ℚ
  optimal_window : ℤ × ℤ
deriving DecidableEq

/-- The `tire_compounds` table of `RaceSimulator.__init__`
(engine.py lines 10-16); `none` models a `KeyError` lookup. -/
def tire_compounds : String → Option CompoundData
  | "soft" => some ⟨0.0, 0.05, (1, 15)⟩
  | "medium" => some ⟨0.5, 0.03, (10, 35)⟩
  | "hard" => some ⟨1.0, 0.02, (25, 50)⟩
  | "intermediate" => some ⟨3.0, 0.04, (1, 30)⟩
  | "wet" => some ⟨6.0, 0.01, (1, 40)⟩
  | _ => none

/-- `RaceSimulator.pit_stop_time` (engine.py line 19). -/
def pit_stop_time : ℚ := 22.0

/-- The five compound names of the `tire_compounds` table. -/
def known_compounds : List String := ["soft", "medium", "hard", "intermediate", "wet"]

/-- The three weather conditions named in the specification. -/
def known_weathers : List String := ["dry", "mixed", "wet"]

/-- `RaceSimulator._calculate_lap_time` (engine.py lines 24-52): base
time, compound pace offset, linear degradation, weather penalty chain,
then one uniform noise draw. -/
def calculate_lap_time (compound : String) (tire_age : ℤ) (weather : String)
    (g : Gen) (n : ℕ) : Except EvalError (ℚ × ℕ) :=
  match tire_compounds compound with
  | none => .error .keyError
  | some cd =>
    let t1 := 90.0 + cd.base_pace
    let t2 := t1 + (tire_age : ℚ) * cd.deg_rate
    let t3 :=
      if weather = "wet" ∧ ¬(compound = "intermediate" ∨ compound = "wet") then t2 + 5.0
      else if weather = "mixed" then
        if compound = "intermediate" then t2 + 1.0
        else if compound = "wet" then t2 + 2.0
        else t2 + 3.0
      else if weather = "dry" ∧ (compound = "intermediate" ∨ compound = "wet") then t2 + 4.0
      else t2
    .ok (t3 + g.uniform n, n + 1)

/-- Loop body of `RaceSimulator._simulate_stint` (engine.py lines 57-68),
recursing on the number of remaining laps; the tire age increments by one
per lap and the total accumulates alongside the lap-time list. -/
def stint_loop (compound weather : String) (g : Gen) :
    ℤ → ℕ → ℕ → Except EvalError (ℚ × List ℚ × ℕ)
  | _, 0, n => .ok (0.0, [], n)
  | tire_age, laps + 1, n =>
    match calculate_lap_time compound tire_age weather g n with
    | .error e => .error e
    | .ok (lt, n') =>
      match stint_loop compound weather g (tire_age + 1) laps n' with
      | .error e => .error e
      | .ok (rest, lap_times, n'') => .ok (lt + rest, lt :: lap_times, n'')

/-- `RaceSimulator._simulate_stint` (engine.py lines 54-68): iterates
`range(start_lap, end_lap + 1)`, so `(end_lap + 1 - start_lap).toNat`
laps. -/
def simulate_stint (start_lap end_lap : ℤ) (compound : String) (start_tire_age : ℤ)
    (weather : String) (g : Gen) (n : ℕ) : Except EvalError (ℚ × List ℚ × ℕ) :=
  stint_loop compound weather g start_tire_age (end_lap + 1 - start_lap).toNat n

/-- The optional `weather_change` entry of a scenario dict
(engine.py lines 85, 111-112). -/
structure WeatherChange where
  lap : ℤ
  condition : String
deriving DecidableEq, Inhabited

/-- A pit-scenario record (the dict consumed by `_evaluate_scenario`,
engine.py lines 82-86); absent keys are `none` and the engine reads them
with the documented `.get` defaults. -/
structure Scenario where
  name : String := ""
  pit_lap : Option ℤ := none
  new_compound : Option String := none
  weather_change : Option WeatherChange := none
  safety_car_probability : Option ℚ := none
deriving DecidableEq, Inhabited

/-- The race parameters extracted from the request
(engine.py lines 72-80 and 161-170). -/
structure RaceParams where
  current_lap : ℤ
  total_laps : ℤ
  current_position : ℤ
  gap_ahead : ℚ
  gap_behind : ℚ
  current_tire_age : ℤ
  current_compound : String
  weather_condition : String
deriving DecidableEq, Inhabited

/-- The result dict built by `_evaluate_scenario`: the copied scenario
plus the computed entries (engine.py lines 89-92, 126-127, 140, 154).
`redirects` is ghost instrumentation absent from the source: it counts
how many safety-car redirections (the recursive calls of line 132)
produced this result, so that the recursion-depth claims can be stated;
no other field depends on it. -/
structure ScenarioResult where
  scenario : Scenario
  total_race_time : ℚ
  position_delta : ℤ
  lap_times : List ℚ
  safety_car_appeared : Option Bool
  safety_car_lap : Option ℤ
  final_position : Option ℤ
  redirects : ℕ
deriving DecidableEq, Inhabited

/-- Weather for the second stint (engine.py lines 110-112): the scenario's
weather-change condition when its lap is at or after the pit lap. -/
def second_stint_weather (sc : Scenario) (rp : RaceParams) (pit_lap : ℤ) : String :=
  match sc.weather_change with
  | some wc => if pit_lap ≤ wc.lap then wc.condition else rp.weather_condition
  | none => rp.weather_condition

/-- Stages 1-3 of `_evaluate_scenario` (engine.py lines 82-120): extract
the scenario parameters, simulate the pre-pit stint when
`pit_lap > current_lap`, and when `pit_lap ≤ total_laps` add the fixed pit
cost and simulate the post-pit stint on fresh tires. -/
def evaluate_stints (sc : Scenario) (rp : RaceParams) (g : Gen) (n : ℕ) :
    Except EvalError (ScenarioResult × ℕ) :=
  match (if rp.current_lap < sc.pit_lap.getD rp.current_lap then
          simulate_stint rp.current_lap (sc.pit_lap.getD rp.current_lap - 1)
            rp.current_compound rp.current_tire_age rp.weather_condition g n
         else .ok (0.0, [], n)) with
  | .error e => .error e
  | .ok (t1, l1, n1) =>
    if sc.pit_lap.getD rp.current_lap ≤ rp.total_laps then
      match simulate_stint (sc.pit_lap.getD rp.current_lap) rp.total_laps
              (sc.new_compound.getD ("medium")) 0
              (second_stint_weather sc rp (sc.pit_lap.getD rp.current_lap)) g n1 with
      | .error e => .error e
      | .ok (t2, l2, n2) =>
        .ok ({ scenario := sc, total_race_time := t1 + pit_stop_time + t2,
               position_delta := 0, lap_times := l1 ++ l2,
               safety_car_appeared := none, safety_car_lap := none,
               final_position := none, redirects := 0 }, n2)
    else
      .ok ({ scenario := sc, total_race_time := t1, position_delta := 0,
             lap_times := l1, safety_car_appeared := none, safety_car_lap := none,
             final_position := none, redirects := 0 }, n1)

/-- Stages 5-6 of `_evaluate_scenario` (engine.py lines 142-154): the
position-delta heuristic against the static gaps, then the final
position. -/
def position_step (res : ScenarioResult) (rp : RaceParams) : ScenarioResult :=
  let time_delta_ahead := res.total_race_time - rp.gap_ahead
  let time_delta_behind := rp.gap_behind - res.total_race_time
  let pd1 := if 0 < time_delta_ahead then res.position_delta + 1 else res.position_delta
  let pd2 := if time_delta_behind < 0 then pd1 - 1 else pd1
  { res with position_delta := pd2,
             final_position := some (rp.current_position - pd2) }

/-- The safety-car lap draw `random.randint(current_lap + 1, total_laps)`
(engine.py line 125), as the generator's output at position `n₁ + 1`. -/
def safety_car_draw (g : Gen) (n₁ : ℕ) (rp : RaceParams) : ℤ :=
  g.randintF (n₁ + 1) (rp.current_lap + 1) rp.total_laps

/-- `RaceSimulator._evaluate_scenario` (engine.py lines 70-156) with an
explicit fuel bound on the safety-car recursion.  After the stints, when
`safety_car_probability > 0` one `random.random()` draw is made; when it
falls below the probability, `random.randint` draws the safety-car lap
(raising `ValueError` when the range `(current_lap, total_laps]` is
empty); a draw before the planned pit lap re-evaluates the scenario with
the pit lap forced to the drawn lap and subtracts 5.0 from the result. -/
def evaluate_scenario : ℕ → Scenario → RaceParams → Gen → ℕ →
    Except EvalError (ScenarioResult × ℕ)
  | 0, _, _, _, _ => .error .fuelOut
  | fuel + 1, sc, rp, g, n =>
    match evaluate_stints sc rp g n with
    | .error e => .error e
    | .ok (res, n₁) =>
      if 0 < sc.safety_car_probability.getD 0 then
        if g.unit n₁ < sc.safety_car_probability.getD 0 then
          if rp.current_lap + 1 ≤ rp.total_laps then
            if safety_car_draw g n₁ rp < sc.pit_lap.getD rp.current_lap then
              match evaluate_scenario fuel
                      { sc with pit_lap := some (safety_car_draw g n₁ rp) } rp g (n₁ + 2) with
              | .error e => .error e
              | .ok (adj, n₂) =>
                .ok ({ adj with total_race_time := adj.total_race_time - 5.0,
                                redirects := adj.redirects + 1 }, n₂)
            else
              .ok (position_step
                     { res with safety_car_appeared := some true,
                                safety_car_lap := some (safety_car_draw g n₁ rp) } rp,
                   n₁ + 2)
          else
            .error .valueError
        else
          .ok (position_step { res with safety_car_appeared := some false } rp, n₁ + 1)
      else
        .ok (position_step { res with safety_car_appeared := some false } rp, n₁)

/-- The default scenario list substituted for an empty input
(engine.py lines 176-182). -/
def default_scenarios (current_lap total_laps : ℤ) : List Scenario :=
  [ { name := "Stay out", pit_lap := some (total_laps + 1) },
    { name := "Pit now", pit_lap := some current_lap, new_compound := some ("hard") },
    { name := "Pit in 3 laps", pit_lap := some (current_lap + 3), new_compound := some ("hard") },
    { name := "Pit in 5 laps", pit_lap := some (current_lap + 5), new_compound := some ("hard") } ]

/-- The evaluation loop of `simulate_scenarios` (engine.py lines 185-188),
threading the shared generator's counter through the scenario list. -/
def evaluate_all (fuel : ℕ) (rp : RaceParams) (g : Gen) :
    List Scenario → ℕ → Except EvalError (List ScenarioResult × ℕ)
  | [], n => .ok ([], n)
  | s :: rest, n =>
    match evaluate_scenario fuel s rp g n with
    | .error e => .error e
    | .ok (r, n1) =>
      match evaluate_all fuel rp g rest n1 with
      | .error e => .error e
      | .ok (rs, n2) => .ok (r :: rs, n2)

/-- Python's `min(results, key=total_race_time)`: the first element of
minimal total race time (engine.py line 191). -/
def min_by_time (best : ScenarioResult) : List ScenarioResult → ScenarioResult
  | [] => best
  | x :: xs => min_by_time (if x.total_race_time < best.total_race_time then x else best) xs

/-- Python's `max(results, key=total_race_time)`: the first element of
maximal total race time (engine.py line 194). -/
def max_by_time (worst : ScenarioResult) : List ScenarioResult → ScenarioResult
  | [] => worst
  | x :: xs => max_by_time (if worst.total_race_time < x.total_race_time then x else worst) xs

/-- The dict returned by `RaceSimulator.simulate_scenarios`
(engine.py lines 197-202). -/
structure RankResult where
  scenarios : List ScenarioResult
  best_scenario : ScenarioResult
  race_position_delta : ℤ
  time_delta : ℚ
deriving DecidableEq, Inhabited

/-- Evaluation and ranking of a (post-substitution) scenario list
(engine.py lines 184-202); Python's `min` on an empty list raises
`ValueError`. -/
def rank_results (fuel : ℕ) (rp : RaceParams) (scs : List Scenario) (g : Gen) (n : ℕ) :
    Except EvalError (RankResult × ℕ) :=
  match evaluate_all fuel rp g scs n with
  | .error e => .error e
  | .ok ([], _) => .error .valueError
  | .ok (r :: rs, n') =>
    .ok ({ scenarios := r :: rs,
           best_scenario := min_by_time r rs,
           race_position_delta := (min_by_time r rs).position_delta,
           time_delta := (max_by_time r rs).total_race_time -
                         (min_by_time r rs).total_race_time }, n')

/-- `RaceSimulator.simulate_scenarios` (engine.py lines 158-202):
substitute the default scenario list when the supplied one is empty, then
evaluate and rank. -/
def simulate_scenarios (fuel : ℕ) (rp : RaceParams) (pit_scenarios : List Scenario)
    (g : Gen) (n : ℕ) : Except EvalError (RankResult × ℕ) :=
  rank_results fuel rp
    (if pit_scenarios.isEmpty then default_scenarios rp.current_lap rp.total_laps
     else pit_scenarios) g n

/-- The typed fields of `SimulationRequest` (main.py lines 39-48).  This
is everything pydantic validates: field types only.  The entries of
`pit_scenarios` are `Dict[str, Any]` in the source and reach the engine
unchecked. -/
structure SimulationRequest where
  current_lap : ℤ
  total_laps : ℤ
  current_position : ℤ
  gap_ahead : ℚ
  gap_behind : ℚ
  current_tire_age : ℤ
  current_compound : String
  weather_condition : String
  pit_scenarios : List Scenario
deriving DecidableEq, Inhabited

/-- The race-parameter dict assembled by the `/simulate` handler
(engine.py lines 161-170 from main.py lines 106-115). -/
def to_race_params (req : SimulationRequest) : RaceParams :=
  { current_lap := req.current_lap, total_laps := req.total_laps,
    current_position := req.current_position, gap_ahead := req.gap_ahead,
    gap_behind := req.gap_behind, current_tire_age := req.current_tire_age,
    current_compound := req.current_compound,
    weather_condition := req.weather_condition }

/-- The `/simulate` handler (main.py lines 102-142) up to its simulation
call: any exception becomes a generic HTTP 500.  The external
strategy-advisor collaborator invoked afterwards is out of the engine's
scope (spec §1) and not modelled. -/
def simulate_endpoint (fuel : ℕ) (req : SimulationRequest) (g : Gen) (n : ℕ) :
    Except ℕ RankResult :=
  match simulate_scenarios fuel (to_race_params req) req.pit_scenarios g n with
  | .ok (r, _) => .ok r
  | .error _ => .error 500

/-- The validation constraints the specification requires at the
`/simulate` boundary (spec §6), as a predicate on requests. -/
def valid_request (req : SimulationRequest) : Bool :=
  decide (1 ≤ req.current_lap) && decide (req.current_lap ≤ req.total_laps) &&
  decide (1 ≤ req.current_position) && decide (0 ≤ req.current_tire_age) &&
  known_compounds.contains req.current_compound &&
  known_weathers.contains req.weather_condition &&
  req.pit_scenarios.all (fun s =>
    match s.pit_lap with
    | some p => decide (req.current_lap ≤ p)
    | none => true)

deriving instance DecidableEq for Except

/-! ## Specification-side definitions

Definitions written from the specification's / claims' wording, to be
compared against the source embedding above. -/

/-- Compound pace offset read off the compound table; 0 for an unknown
compound (never used on unknowns in the theorems below). -/
def base_pace_of (c : String) : ℚ :=
  match tire_compounds c with
  | some cd => cd.base_pace
  | none => 0

/-- Degradation rate read off the compound table; 0 for an unknown
compound. -/
def deg_rate_of (c : String) : ℚ :=
  match tire_compounds c with
  | some cd => cd.deg_rate
  | none => 0

/-- Modelled from the claim's words (C2): the weather penalty table —
wet weather on a compound other than intermediate/wet: +5.0; mixed
weather: +1.0 for intermediate, +2.0 for wet, +3.0 for any dry compound;
dry weather on intermediate/wet: +4.0; otherwise 0. -/
def spec_weather_penalty (compound weather : String) : ℚ :=
  if weather = "wet" ∧ compound ≠ "intermediate" ∧ compound ≠ "wet" then 5
  else if weather = "mixed" then
    if compound = "intermediate" then 1
    else if compound = "wet" then 2
    else 3
  else if weather = "dry" ∧ (compound = "intermediate" ∨ compound = "wet") then 4
  else 0

/-- Modelled from the claim's words (C6): the four documented default
scenarios — stay-out with pit lap = totalLaps + 1, pit-now on hard tires,
pit-in-3-laps on hard, pit-in-5-laps on hard. -/
def default_scenarios_spec (current_lap total_laps : ℤ) : List Scenario :=
  [ { name := "Stay out", pit_lap := some (total_laps + 1) },
    { name := "Pit now", pit_lap := some current_lap, new_compound := some ("hard") },
    { name := "Pit in 3 laps", pit_lap := some (current_lap + 3), new_compound := some ("hard") },
    { name := "Pit in 5 laps", pit_lap := some (current_lap + 5), new_compound := some ("hard") } ]

/-! ## Concrete fixtures

Concrete generators, race states and scenarios used by the witness and
counterexample theorems. -/

/-- Draw source returning 0 noise, 0 unit draws and the low end of every
randint range. -/
def gen0 : Gen :=
  { uniform := fun _ => 0, unit := fun _ => 0, randintF := fun _ lo _ => lo }

/-- A one-lap race state on soft tires in the dry. -/
def rp0 : RaceParams :=
  { current_lap := 1, total_laps := 1, current_position := 1, gap_ahead := 0,
    gap_behind := 0, current_tire_age := 0, current_compound := "soft",
    weather_condition := "dry" }

/-- A stay-out scenario for `rp0` (pit lap past the final lap). -/
def scA : Scenario := { pit_lap := some 2 }

/-- The result of evaluating `scA` on `rp0` with zero noise. -/
def resA : ScenarioResult := ((evaluate_scenario 1 scA rp0 gen0 0).toOption.getD default).1

/-- The result of a two-lap soft stint with zero noise. -/
def stint0 : ℚ × List ℚ × ℕ := (simulate_stint 1 2 ("soft") 0 ("dry") gen0 0).toOption.getD default

/-- A two-lap race state used by the safety-car branch witness. -/
def rpB : RaceParams :=
  { current_lap := 1, total_laps := 2, current_position := 1, gap_ahead := 0,
    gap_behind := 0, current_tire_age := 0, current_compound := "soft",
    weather_condition := "dry" }

/-- A scenario whose safety-car branch always fires on `rpB`. -/
def scB : Scenario := { pit_lap := some 3, safety_car_probability := some 1 }

/-- The stint stage of `scB` on `rpB` with zero noise. -/
def baseB : ScenarioResult × ℕ := (evaluate_stints scB rpB gen0 0).toOption.getD default

/-- The ranking of the single scenario `scA` on `rp0`. -/
def rank0 : RankResult := ((simulate_scenarios 1 rp0 [scA] gen0 0).toOption.getD default).1

/-- A request violating the boundary constraints: `current_position = 0`. -/
def req7 : SimulationRequest :=
  { current_lap := 1, total_laps := 1, current_position := 0, gap_ahead := 0,
    gap_behind := 0, current_tire_age := 0, current_compound := "soft",
    weather_condition := "dry", pit_scenarios := [scA] }

/-- The response the endpoint computes for the invalid request `req7`. -/
def rank7 : RankResult := (simulate_endpoint 1 req7 gen0 0).toOption.getD default

/-- A valid race state on its final lap (`current_lap = total_laps = 5`). -/
def rp8 : RaceParams :=
  { current_lap := 5, total_laps := 5, current_position := 1, gap_ahead := 0,
    gap_behind := 0, current_tire_age := 0, current_compound := "soft",
    weather_condition := "dry" }

/-- A scenario with safety-car probability 1 and no explicit pit lap. -/
def sc8 : Scenario := { safety_car_probability := some 1 }

/-- The request carrying `rp8` and `sc8`, valid per the boundary
constraints. -/
def req8 : SimulationRequest :=
  { current_lap := 5, total_laps := 5, current_position := 1, gap_ahead := 0,
    gap_behind := 0, current_tire_age := 0, current_compound := "soft",
    weather_condition := "dry", pit_scenarios := [sc8] }

/-- Well-formed draw source whose safety-car lap draws produce a depth-2
redirect chain on `rp9`/`sc9`: the draw at position 11 yields lap 5 and
the draw at position 23 yields lap 3 (clamped into range); all other
randint draws return the high end. -/
def gen9 : Gen :=
  { uniform := fun _ => 0, unit := fun _ => 0,
    randintF := fun n lo hi =>
      if n = 11 then max lo (min 5 hi) else if n = 23 then max lo (min 3 hi) else hi }

/-- A ten-lap race state at lap 1. -/
def rp9 : RaceParams :=
  { current_lap := 1, total_laps := 10, current_position := 1, gap_ahead := 0,
    gap_behind := 0, current_tire_age := 0, current_compound := "soft",
    weather_condition := "dry" }

/-- A pit-on-lap-9 scenario with safety-car probability 1. -/
def sc9 : Scenario := { pit_lap := some 9, safety_car_probability := some 1 }

/-! ## Helper lemmas -/

/-- A successful lap-time call consumes exactly one draw. -/
theorem calculate_lap_time_counter (c : String) (a : ℤ) (w : String) (g : Gen) (n : ℕ)
    (t : ℚ) (m : ℕ) (h : calculate_lap_time c a w g n = .ok (t, m)) : m = n + 1 := by
  unfold calculate_lap_time at h
  cases hc : tire_compounds c <;> rw [hc] at h <;> simp_all

/-- Characterisation of a successful stint loop: the total is the sum of
the lap times, one lap time per remaining lap, the counter advances by
one per lap, and the i-th lap is the lap-time call at age plus i. -/
theorem stint_loop_spec (c w : String) (g : Gen) :
    ∀ (k : ℕ) (a : ℤ) (n : ℕ) (t : ℚ) (l : List ℚ) (n' : ℕ),
      stint_loop c w g a k n = .ok (t, l, n') →
      t = l.sum ∧ l.length = k ∧ n' = n + k ∧
      ∀ (i : ℕ) (hi : i < l.length),
        calculate_lap_time c (a + i) w g (n + i) = .ok (l[i], (n + i) + 1) := by
  intro k
  induction k with
  | zero =>
    intro a n t l n' h
    simp only [stint_loop, Except.ok.injEq, Prod.mk.injEq] at h
    obtain ⟨h1, h2, h3⟩ := h
    subst h1; subst h2; subst h3
    refine ⟨by norm_num, rfl, rfl, ?_⟩
    intro i hi
    simp at hi
  | succ k ih =>
    intro a n t l n' h
    simp only [stint_loop] at h
    cases hc : calculate_lap_time c a w g n with
    | error e => rw [hc] at h; exact absurd h (by simp)
    | ok p =>
      obtain ⟨lt, m⟩ := p
      rw [hc] at h
      dsimp only at h
      have hm := calculate_lap_time_counter c a w g n lt m hc
      subst hm
      cases hr : stint_loop c w g (a + 1) k (n + 1) with
      | error e => rw [hr] at h; exact absurd h (by simp)
      | ok q =>
        obtain ⟨rest, lts, n''⟩ := q
        rw [hr] at h
        simp only [Except.ok.injEq, Prod.mk.injEq] at h
        obtain ⟨h1, h2, h3⟩ := h
        subst h1; subst h2; subst h3
        obtain ⟨ihsum, ihlen, ihn, ihlap⟩ := ih (a + 1) (n + 1) rest lts n'' hr
        refine ⟨by simp [ihsum], by simp [ihlen], by omega, ?_⟩
        intro i hi
        cases i with
        | zero =>
          simpa using hc
        | succ j =>
          have hj : j < lts.length := by simpa using hi
          have hstep := ihlap j hj
          have e1 : a + ((j + 1 : ℕ) : ℤ) = (a + 1) + (j : ℤ) := by push_cast; ring
          have e2 : n + (j + 1) = (n + 1) + j := by omega
          rw [List.getElem_cons_succ, e1, e2]
          exact hstep

/-- Field accounting of the position-delta step: it rewrites only
`position_delta` and `final_position`, incrementing on the gap-ahead check
and decrementing on the gap-behind check. -/
theorem position_step_spec (res : ScenarioResult) (rp : RaceParams) :
    (position_step res rp).total_race_time = res.total_race_time ∧
    (position_step res rp).lap_times = res.lap_times ∧
    (position_step res rp).scenario = res.scenario ∧
    (position_step res rp).redirects = res.redirects ∧
    (position_step res rp).safety_car_appeared = res.safety_car_appeared ∧
    (position_step res rp).safety_car_lap = res.safety_car_lap ∧
    (position_step res rp).position_delta =
      res.position_delta + (if 0 < res.total_race_time - rp.gap_ahead then 1 else 0)
        - (if rp.gap_behind - res.total_race_time < 0 then 1 else 0) ∧
    (position_step res rp).final_position =
      some (rp.current_position - (position_step res rp).position_delta) := by
  unfold position_step
  refine ⟨rfl, rfl, rfl, rfl, rfl, rfl, ?_, rfl⟩
  dsimp only
  split_ifs <;> ring

/-- Characterisation of the stint stage: the total is the lap-time sum
plus the pit cost exactly when the pit lap is within the race, and the
bookkeeping fields start at their initial values. -/
theorem evaluate_stints_spec (sc : Scenario) (rp : RaceParams) (g : Gen) (n : ℕ)
    (res : ScenarioResult) (n₁ : ℕ) (h : evaluate_stints sc rp g n = .ok (res, n₁)) :
    res.total_race_time = res.lap_times.sum +
      (if sc.pit_lap.getD rp.current_lap ≤ rp.total_laps then pit_stop_time else 0) ∧
    res.position_delta = 0 ∧ res.redirects = 0 ∧ res.scenario = sc := by
  unfold evaluate_stints at h
  cases h1 : (if rp.current_lap < sc.pit_lap.getD rp.current_lap then
          simulate_stint rp.current_lap (sc.pit_lap.getD rp.current_lap - 1)
            rp.current_compound rp.current_tire_age rp.weather_condition g n
         else .ok (0.0, [], n)) with
  | error e => rw [h1] at h; exact absurd h (by simp)
  | ok p =>
    obtain ⟨t1, l1, n1⟩ := p
    rw [h1] at h
    dsimp only at h
    have hsum1 : t1 = l1.sum := by
      by_cases hc : rp.current_lap < sc.pit_lap.getD rp.current_lap
      · rw [if_pos hc] at h1
        exact (stint_loop_spec rp.current_compound rp.weather_condition g _
          rp.current_tire_age n t1 l1 n1 h1).1
      · rw [if_neg hc] at h1
        simp only [Except.ok.injEq, Prod.mk.injEq] at h1
        obtain ⟨e1, e2, _⟩ := h1
        subst e1; subst e2; norm_num
    by_cases hpit : sc.pit_lap.getD rp.current_lap ≤ rp.total_laps
    · rw [if_pos hpit] at h
      cases h2 : simulate_stint (sc.pit_lap.getD rp.current_lap) rp.total_laps
              (sc.new_compound.getD ("medium")) 0
              (second_stint_weather sc rp (sc.pit_lap.getD rp.current_lap)) g n1 with
      | error e => rw [h2] at h; exact absurd h (by simp)
      | ok q =>
        obtain ⟨t2, l2, n2⟩ := q
        rw [h2] at h
        dsimp only at h
        have hsum2 : t2 = l2.sum :=
          (stint_loop_spec (sc.new_compound.getD ("medium"))
            (second_stint_weather sc rp (sc.pit_lap.getD rp.current_lap)) g _ 0 n1 t2 l2 n2 h2).1
        simp only [Except.ok.injEq, Prod.mk.injEq] at h
        obtain ⟨hres, _⟩ := h
        subst hres
        rw [if_pos hpit]
        refine ⟨?_, rfl, rfl, rfl⟩
        simp [hsum1, hsum2]
        ring
    · rw [if_neg hpit] at h
      simp only [Except.ok.injEq, Prod.mk.injEq] at h
      obtain ⟨hres, _⟩ := h
      subst hres
      rw [if_neg hpit]
      refine ⟨?_, rfl, rfl, rfl⟩
      simp [hsum1]

/-- The lap-time model never reports fuel exhaustion. -/
theorem calculate_lap_time_not_fuelOut (c : String) (a : ℤ) (w : String) (g : Gen) (n : ℕ) :
    calculate_lap_time c a w g n ≠ .error .fuelOut := by
  unfold calculate_lap_time
  cases tire_compounds c <;> simp

/-- The stint loop never reports fuel exhaustion. -/
theorem stint_loop_not_fuelOut (c w : String) (g : Gen) :
    ∀ (k : ℕ) (a : ℤ) (n : ℕ), stint_loop c w g a k n ≠ .error .fuelOut := by
  intro k
  induction k with
  | zero => intro a n; simp [stint_loop]
  | succ k ih =>
    intro a n
    simp only [stint_loop]
    cases hc : calculate_lap_time c a w g n with
    | error e =>
      intro hcontra
      simp only [Except.error.injEq] at hcontra
      exact calculate_lap_time_not_fuelOut c a w g n (by rw [hc, hcontra])
    | ok p =>
      obtain ⟨lt, m⟩ := p
      dsimp only
      cases hr : stint_loop c w g (a + 1) k m with
      | error e =>
        intro hcontra
        simp only [Except.error.injEq] at hcontra
        exact ih (a + 1) m (by rw [hr, hcontra])
      | ok q => obtain ⟨rest, lts, n''⟩ := q; simp

/-- The stint stage never reports fuel exhaustion. -/
theorem evaluate_stints_not_fuelOut (sc : Scenario) (rp : RaceParams) (g : Gen) (n : ℕ) :
    evaluate_stints sc rp g n ≠ .error .fuelOut := by
  unfold evaluate_stints
  cases h1 : (if rp.current_lap < sc.pit_lap.getD rp.current_lap then
          simulate_stint rp.current_lap (sc.pit_lap.getD rp.current_lap - 1)
            rp.current_compound rp.current_tire_age rp.weather_condition g n
         else .ok (0.0, [], n)) with
  | error e =>
    intro hcontra
    simp only [Except.error.injEq] at hcontra
    subst hcontra
    by_cases hc : rp.current_lap < sc.pit_lap.getD rp.current_lap
    · rw [if_pos hc] at h1
      exact stint_loop_not_fuelOut rp.current_compound rp.weather_condition g _ _ _ h1
    · rw [if_neg hc] at h1
      exact absurd h1 (by simp)
  | ok p =>
    obtain ⟨t1, l1, n1⟩ := p
    dsimp only
    by_cases hpit : sc.pit_lap.getD rp.current_lap ≤ rp.total_laps
    · rw [if_pos hpit]
      cases h2 : simulate_stint (sc.pit_lap.getD rp.current_lap) rp.total_laps
              (sc.new_compound.getD ("medium")) 0
              (second_stint_weather sc rp (sc.pit_lap.getD rp.current_lap)) g n1 with
      | error e =>
        intro hcontra
        simp only [Except.error.injEq] at hcontra
        subst hcontra
        exact stint_loop_not_fuelOut _ _ g _ _ _ h2
      | ok q => obtain ⟨t2, l2, n2⟩ := q; simp
    · rw [if_neg hpit]; simp

/-! ## Claim theorems -/

/-- C1: every result produced by a scenario evaluation has
`total_race_time` equal to the sum of its `lap_times` entries, plus the
fixed 22.0s pit cost exactly when the (effective) pit lap is at most the
total laps, minus the 5.0s safety-car saving once per redirect — the
safety-car adjustment is a direct subtraction after stint summation and is
never represented per-lap. -/
theorem total_time_invariant :
    ∀ (fuel : ℕ) (sc : Scenario) (rp : RaceParams) (g : Gen) (n : ℕ)
      (res : ScenarioResult) (n' : ℕ),
      evaluate_scenario fuel sc rp g n = .ok (res, n') →
      res.total_race_time = res.lap_times.sum +
        (if res.scenario.pit_lap.getD rp.current_lap ≤ rp.total_laps then pit_stop_time else 0)
        - 5 * (res.redirects : ℚ) := by
  intro fuel
  induction fuel with
  | zero =>
    intro sc rp g n res n' h
    exact absurd h (by simp [evaluate_scenario])
  | succ fuel ih =>
    intro sc rp g n res n' h
    simp only [evaluate_scenario] at h
    cases hb : evaluate_stints sc rp g n with
    | error e => rw [hb] at h; exact absurd h (by simp)
    | ok p =>
      obtain ⟨base, n₁⟩ := p
      rw [hb] at h
      dsimp only at h
      obtain ⟨hbsum, hbpd, hbred, hbsc⟩ := evaluate_stints_spec sc rp g n base n₁ hb
      by_cases h1 : 0 < sc.safety_car_probability.getD 0
      · rw [if_pos h1] at h
        by_cases h2 : g.unit n₁ < sc.safety_car_probability.getD 0
        · rw [if_pos h2] at h
          by_cases h3 : rp.current_lap + 1 ≤ rp.total_laps
          · rw [if_pos h3] at h
            by_cases h4 : safety_car_draw g n₁ rp < sc.pit_lap.getD rp.current_lap
            · rw [if_pos h4] at h
              cases hrec : evaluate_scenario fuel
                  { sc with pit_lap := some (safety_car_draw g n₁ rp) } rp g (n₁ + 2) with
              | error e => rw [hrec] at h; exact absurd h (by simp)
              | ok q =>
                obtain ⟨adj, n₂⟩ := q
                rw [hrec] at h
                dsimp only at h
                simp only [Except.ok.injEq, Prod.mk.injEq] at h
                obtain ⟨hres, _⟩ := h
                have ihadj := ih _ rp g (n₁ + 2) adj n₂ hrec
                subst hres
                dsimp only
                rw [ihadj]
                push_cast
                ring_nf
            · rw [if_neg h4] at h
              simp only [Except.ok.injEq, Prod.mk.injEq] at h
              obtain ⟨hres, _⟩ := h
              subst hres
              obtain ⟨pt, pl, psc, pred, _, _, _, _⟩ := position_step_spec
                { base with safety_car_appeared := some true,
                            safety_car_lap := some (safety_car_draw g n₁ rp) } rp
              rw [pt, pl, psc, pred]
              dsimp only
              rw [hbsc, hbred, hbsum]
              norm_num
          · rw [if_neg h3] at h
            exact absurd h (by simp)
        · rw [if_neg h2] at h
          simp only [Except.ok.injEq, Prod.mk.injEq] at h
          obtain ⟨hres, _⟩ := h
          subst hres
          obtain ⟨pt, pl, psc, pred, _, _, _, _⟩ := position_step_spec
            { base with safety_car_appeared := some false } rp
          rw [pt, pl, psc, pred]
          dsimp only
          rw [hbsc, hbred, hbsum]
          norm_num
      · rw [if_neg h1] at h
        simp only [Except.ok.injEq, Prod.mk.injEq] at h
        obtain ⟨hres, _⟩ := h
        subst hres
        obtain ⟨pt, pl, psc, pred, _, _, _, _⟩ := position_step_spec
          { base with safety_car_appeared := some false } rp
        rw [pt, pl, psc, pred]
        dsimp only
        rw [hbsc, hbred, hbsum]
        norm_num

/-- C5: in every scenario evaluation that reaches the position-delta step
(no safety-car redirect), the position delta gains 1 exactly when
`total_race_time - gap_ahead > 0` and loses 1 exactly when
`gap_behind - total_race_time < 0` (independent checks on the static
gaps), and the final position is `current_position - position_delta`. -/
theorem position_delta_spec (fuel : ℕ) (sc : Scenario) (rp : RaceParams) (g : Gen)
    (n : ℕ) (res : ScenarioResult) (n' : ℕ)
    (h : evaluate_scenario fuel sc rp g n = .ok (res, n'))
    (hnr : res.redirects = 0) :
    res.position_delta =
      (if 0 < res.total_race_time - rp.gap_ahead then 1 else 0)
        - (if rp.gap_behind - res.total_race_time < 0 then 1 else 0) ∧
    res.final_position = some (rp.current_position - res.position_delta) := by
  cases fuel with
  | zero => exact absurd h (by simp [evaluate_scenario])
  | succ fuel =>
    simp only [evaluate_scenario] at h
    cases hb : evaluate_stints sc rp g n with
    | error e => rw [hb] at h; exact absurd h (by simp)
    | ok p =>
      obtain ⟨base, n₁⟩ := p
      rw [hb] at h
      dsimp only at h
      obtain ⟨hbsum, hbpd, hbred, hbsc⟩ := evaluate_stints_spec sc rp g n base n₁ hb
      by_cases h1 : 0 < sc.safety_car_probability.getD 0
      · rw [if_pos h1] at h
        by_cases h2 : g.unit n₁ < sc.safety_car_probability.getD 0
        · rw [if_pos h2] at h
          by_cases h3 : rp.current_lap + 1 ≤ rp.total_laps
          · rw [if_pos h3] at h
            by_cases h4 : safety_car_draw g n₁ rp < sc.pit_lap.getD rp.current_lap
            · rw [if_pos h4] at h
              cases hrec : evaluate_scenario fuel
                  { sc with pit_lap := some (safety_car_draw g n₁ rp) } rp g (n₁ + 2) with
              | error e => rw [hrec] at h; exact absurd h (by simp)
              | ok q =>
                obtain ⟨adj, n₂⟩ := q
                rw [hrec] at h
                dsimp only at h
                simp only [Except.ok.injEq, Prod.mk.injEq] at h
                obtain ⟨hres, _⟩ := h
                subst hres
                dsimp only at hnr
                exact absurd hnr (by simp)
            · rw [if_neg h4] at h
              simp only [Except.ok.injEq, Prod.mk.injEq] at h
              obtain ⟨hres, _⟩ := h
              subst hres
              obtain ⟨pt, _, _, _, _, _, ppd, pfp⟩ := position_step_spec
                { base with safety_car_appeared := some true,
                            safety_car_lap := some (safety_car_draw g n₁ rp) } rp
              refine ⟨?_, pfp⟩
              rw [ppd, pt]
              dsimp only
              rw [hbpd]
              ring
          · rw [if_neg h3] at h
            exact absurd h (by simp)
        · rw [if_neg h2] at h
          simp only [Except.ok.injEq, Prod.mk.injEq] at h
          obtain ⟨hres, _⟩ := h
          subst hres
          obtain ⟨pt, _, _, _, _, _, ppd, pfp⟩ := position_step_spec
            { base with safety_car_appeared := some false } rp
          refine ⟨?_, pfp⟩
          rw [ppd, pt]
          dsimp only
          rw [hbpd]
          ring
      · rw [if_neg h1] at h
        simp only [Except.ok.injEq, Prod.mk.injEq] at h
        obtain ⟨hres, _⟩ := h
        subst hres
        obtain ⟨pt, _, _, _, _, _, ppd, pfp⟩ := position_step_spec
          { base with safety_car_appeared := some false } rp
        refine ⟨?_, pfp⟩
        rw [ppd, pt]
        dsimp only
        rw [hbpd]
        ring

/-- C4: when the safety-car probability is positive and the unit draw
falls below it, the drawn safety-car lap lies in
`(current_lap, total_laps]` for well-formed draws; if it is strictly
before the planned pit lap the evaluator returns the re-evaluation of the
same scenario with the pit lap forced to the drawn lap, minus the 5.0s
saving, bypassing the position-delta step of the current invocation;
otherwise it applies the position-delta step to the stint result with
`safety_car_appeared` marked true and the drawn lap recorded, leaving the
schedule unchanged. -/
theorem safety_car_branch_spec (fuel : ℕ) (sc : Scenario) (rp : RaceParams) (g : Gen)
    (n n₁ : ℕ) (base : ScenarioResult)
    (hbase : evaluate_stints sc rp g n = .ok (base, n₁))
    (hp : 0 < sc.safety_car_probability.getD 0)
    (hdraw : g.unit n₁ < sc.safety_car_probability.getD 0)
    (hlap : rp.current_lap + 1 ≤ rp.total_laps) :
    (Gen.WF g → rp.current_lap + 1 ≤ safety_car_draw g n₁ rp ∧
       safety_car_draw g n₁ rp ≤ rp.total_laps) ∧
    (safety_car_draw g n₁ rp < sc.pit_lap.getD rp.current_lap →
       evaluate_scenario (fuel + 1) sc rp g n =
         match evaluate_scenario fuel
                 { sc with pit_lap := some (safety_car_draw g n₁ rp) } rp g (n₁ + 2) with
         | .error e => .error e
         | .ok (adj, n₂) =>
           .ok ({ adj with total_race_time := adj.total_race_time - 5.0,
                           redirects := adj.redirects + 1 }, n₂)) ∧
    (¬ safety_car_draw g n₁ rp < sc.pit_lap.getD rp.current_lap →
       evaluate_scenario (fuel + 1) sc rp g n =
         .ok (position_step
                { base with safety_car_appeared := some true,
                            safety_car_lap := some (safety_car_draw g n₁ rp) } rp,
              n₁ + 2)) := by
  refine ⟨?_, ?_, ?_⟩
  · intro hg
    exact hg.2.2 (n₁ + 1) (rp.current_lap + 1) rp.total_laps hlap
  · intro hred
    simp only [evaluate_scenario]
    rw [hbase]
    dsimp only
    rw [if_pos hp, if_pos hdraw, if_pos hlap, if_pos hred]
  · intro hred
    simp only [evaluate_scenario]
    rw [hbase]
    dsimp only
    rw [if_pos hp, if_pos hdraw, if_pos hlap, if_neg hred]

/-- Redirect-count bound: for well-formed draws, the number of safety-car
redirections in a successful evaluation is bounded both by the room below
the planned pit lap and by the laps remaining in the race. -/
theorem redirect_bound_aux (rp : RaceParams) (g : Gen) (hg : Gen.WF g) :
    ∀ (fuel : ℕ) (sc : Scenario) (n : ℕ) (res : ScenarioResult) (n' : ℕ),
      evaluate_scenario fuel sc rp g n = .ok (res, n') →
      res.redirects ≤ (sc.pit_lap.getD rp.current_lap - 1 - rp.current_lap).toNat ∧
      res.redirects ≤ (rp.total_laps - rp.current_lap).toNat := by
  intro fuel
  induction fuel with
  | zero =>
    intro sc n res n' h
    exact absurd h (by simp [evaluate_scenario])
  | succ fuel ih =>
    intro sc n res n' h
    simp only [evaluate_scenario] at h
    cases hb : evaluate_stints sc rp g n with
    | error e => rw [hb] at h; exact absurd h (by simp)
    | ok p =>
      obtain ⟨base, n₁⟩ := p
      rw [hb] at h
      dsimp only at h
      obtain ⟨_, _, hbred, _⟩ := evaluate_stints_spec sc rp g n base n₁ hb
      by_cases h1 : 0 < sc.safety_car_probability.getD 0
      · rw [if_pos h1] at h
        by_cases h2 : g.unit n₁ < sc.safety_car_probability.getD 0
        · rw [if_pos h2] at h
          by_cases h3 : rp.current_lap + 1 ≤ rp.total_laps
          · rw [if_pos h3] at h
            by_cases h4 : safety_car_draw g n₁ rp < sc.pit_lap.getD rp.current_lap
            · rw [if_pos h4] at h
              cases hrec : evaluate_scenario fuel
                  { sc with pit_lap := some (safety_car_draw g n₁ rp) } rp g (n₁ + 2) with
              | error e => rw [hrec] at h; exact absurd h (by simp)
              | ok q =>
                obtain ⟨adj, n₂⟩ := q
                rw [hrec] at h
                dsimp only at h
                simp only [Except.ok.injEq, Prod.mk.injEq] at h
                obtain ⟨hres, _⟩ := h
                subst hres
                obtain ⟨ih1, ih2⟩ := ih _ (n₁ + 2) adj n₂ hrec
                dsimp only at ih1 ⊢
                simp only [Option.getD_some] at ih1
                obtain ⟨hlo, hhi⟩ := hg.2.2 (n₁ + 1) (rp.current_lap + 1) rp.total_laps h3
                unfold safety_car_draw at ih1 h4
                constructor <;> omega
            · rw [if_neg h4] at h
              simp only [Except.ok.injEq, Prod.mk.injEq] at h
              obtain ⟨hres, _⟩ := h
              subst hres
              obtain ⟨_, _, _, pred, _, _, _, _⟩ := position_step_spec
                { base with safety_car_appeared := some true,
                            safety_car_lap := some (safety_car_draw g n₁ rp) } rp
              rw [pred]
              dsimp only
              rw [hbred]
              omega
          · rw [if_neg h3] at h
            exact absurd h (by simp)
        · rw [if_neg h2] at h
          simp only [Except.ok.injEq, Prod.mk.injEq] at h
          obtain ⟨hres, _⟩ := h
          subst hres
          obtain ⟨_, _, _, pred, _, _, _, _⟩ := position_step_spec
            { base with safety_car_appeared := some false } rp
          rw [pred]
          dsimp only
          rw [hbred]
          omega
      · rw [if_neg h1] at h
        simp only [Except.ok.injEq, Prod.mk.injEq] at h
        obtain ⟨hres, _⟩ := h
        subst hres
        obtain ⟨_, _, _, pred, _, _, _, _⟩ := position_step_spec
          { base with safety_car_appeared := some false } rp
        rw [pred]
        dsimp only
        rw [hbred]
        omega

/-- Fuel sufficiency: with fuel exceeding the smaller of the room below
the planned pit lap and the laps remaining, a well-formed evaluation never
exhausts its fuel. -/
theorem no_fuelOut_aux (rp : RaceParams) (g : Gen) (hg : Gen.WF g) :
    ∀ (fuel : ℕ) (sc : Scenario) (n : ℕ),
      min ((sc.pit_lap.getD rp.current_lap - 1 - rp.current_lap).toNat)
          ((rp.total_laps - rp.current_lap).toNat) + 1 ≤ fuel →
      evaluate_scenario fuel sc rp g n ≠ .error .fuelOut := by
  intro fuel
  induction fuel with
  | zero => intro sc n hf; omega
  | succ fuel ih =>
    intro sc n hf
    simp only [evaluate_scenario]
    cases hb : evaluate_stints sc rp g n with
    | error e =>
      intro hcontra
      simp only [Except.error.injEq] at hcontra
      subst hcontra
      exact evaluate_stints_not_fuelOut sc rp g n hb
    | ok p =>
      obtain ⟨base, n₁⟩ := p
      dsimp only
      by_cases h1 : 0 < sc.safety_car_probability.getD 0
      · rw [if_pos h1]
        by_cases h2 : g.unit n₁ < sc.safety_car_probability.getD 0
        · rw [if_pos h2]
          by_cases h3 : rp.current_lap + 1 ≤ rp.total_laps
          · rw [if_pos h3]
            by_cases h4 : safety_car_draw g n₁ rp < sc.pit_lap.getD rp.current_lap
            · rw [if_pos h4]
              cases hrec : evaluate_scenario fuel
                  { sc with pit_lap := some (safety_car_draw g n₁ rp) } rp g (n₁ + 2) with
              | error e =>
                dsimp only
                intro hcontra
                simp only [Except.error.injEq] at hcontra
                subst hcontra
                obtain ⟨hlo, hhi⟩ := hg.2.2 (n₁ + 1) (rp.current_lap + 1) rp.total_laps h3
                refine ih { sc with pit_lap := some (safety_car_draw g n₁ rp) } (n₁ + 2)
                  ?_ hrec
                dsimp only
                simp only [Option.getD_some]
                unfold safety_car_draw
                unfold safety_car_draw at h4
                omega
              | ok q => obtain ⟨adj, n₂⟩ := q; simp
            · rw [if_neg h4]; simp
          · rw [if_neg h3]; simp
        · rw [if_neg h2]; simp
      · rw [if_neg h1]; simp

/-- The zero draw source satisfies the range guarantees. -/
theorem gen0_wf : Gen.WF gen0 := by
  refine ⟨fun n => ?_, fun n => ?_, fun n lo hi h => ?_⟩
  · constructor <;> norm_num [gen0]
  · constructor <;> norm_num [gen0]
  · refine ⟨le_refl lo, h⟩

/-- The depth-2 draw source satisfies the range guarantees. -/
theorem gen9_wf : Gen.WF gen9 := by
  refine ⟨fun n => ?_, fun n => ?_, fun n lo hi h => ?_⟩
  · constructor <;> norm_num [gen9]
  · constructor <;> norm_num [gen9]
  · dsimp only [gen9]
    split_ifs <;> omega

/-- C10: for a race state with laps remaining and a well-formed draw
source, scenario evaluation with fuel exceeding the remaining-lap count
never exhausts its fuel — every safety-car re-evaluation forces a
strictly smaller pit lap at least `current_lap + 1`, so the recursion
depth is bounded by `total_laps - current_lap`. -/
theorem evaluation_terminates (fuel : ℕ) (sc : Scenario) (rp : RaceParams) (g : Gen)
    (n : ℕ) (hg : Gen.WF g) (hcl : rp.current_lap < rp.total_laps)
    (hfuel : (rp.total_laps - rp.current_lap).toNat + 1 ≤ fuel) :
    evaluate_scenario fuel sc rp g n ≠ .error .fuelOut := by
  refine no_fuelOut_aux rp g hg fuel sc n ?_
  omega

/-- C10 witness: the termination theorem applied to a concrete ten-lap
state with the zero draw source and fuel 10. -/
theorem evaluation_terminates_witness :
    evaluate_scenario 10 scA rp9 gen0 0 ≠ .error .fuelOut :=
  evaluation_terminates 10 scA rp9 gen0 0 gen0_wf (by decide) (by decide)

/-- C9 (amended): the safety-car re-evaluation is not capped at depth 1 —
nested redirects can occur — but each redirect forces a strictly smaller
pit lap no smaller than `current_lap + 1`, so for well-formed draws the
number of redirections behind any successful evaluation is bounded by
`total_laps - current_lap`. -/
theorem redirect_depth_bound (fuel : ℕ) (sc : Scenario) (rp : RaceParams) (g : Gen)
    (n : ℕ) (res : ScenarioResult) (n' : ℕ) (hg : Gen.WF g)
    (h : evaluate_scenario fuel sc rp g n = .ok (res, n')) :
    res.redirects ≤ (rp.total_laps - rp.current_lap).toNat :=
  (redirect_bound_aux rp g hg fuel sc n res n' h).2

/-- C9 witness: the depth bound applied to a concrete evaluation of the
stay-out scenario on the one-lap state. -/
theorem redirect_depth_bound_witness :
    resA.redirects ≤ (rp0.total_laps - rp0.current_lap).toNat :=
  redirect_depth_bound 1 scA rp0 gen0 0 resA 1 gen0_wf (by rfl)

/-- C9 counterexample: a well-formed draw sequence under which the
safety-car redirect recursion reaches depth 2 — the re-evaluation
triggered by the first safety-car draw itself performs another nested
redirect, refuting the claim that the recursion depth never exceeds 1. -/
theorem nested_redirect_counterexample :
    Gen.WF gen9 ∧
    (evaluate_scenario 5 sc9 rp9 gen9 0).map (fun p => p.1.redirects) = .ok 2 :=
  ⟨gen9_wf, by decide⟩

/-- C2: for every known compound, integer tire age and known weather, the
lap-time model returns the 90.0s base plus the compound's pace offset
(soft fastest at 0.0, wet slowest at +6.0), plus the unbounded linear
degradation `tire_age * deg_rate`, plus the single weather penalty of the
specification's table, plus the noise draw added last, consuming one
draw. -/
theorem lap_time_model_spec (c w : String) (a : ℤ) (g : Gen) (n : ℕ)
    (hc : c ∈ known_compounds) (hw : w ∈ known_weathers) :
    calculate_lap_time c a w g n =
      .ok (90 + base_pace_of c + (a : ℚ) * deg_rate_of c + spec_weather_penalty c w
             + g.uniform n, n + 1) ∧
    base_pace_of ("soft") = 0 ∧ base_pace_of ("wet") = 6 ∧
    ∀ c', c' ∈ known_compounds →
      base_pace_of ("soft") ≤ base_pace_of c' ∧ base_pace_of c' ≤ base_pace_of ("wet") := by
  refine ⟨?_, by norm_num [base_pace_of, tire_compounds], by norm_num [base_pace_of, tire_compounds], ?_⟩
  · simp only [known_compounds, List.mem_cons, List.not_mem_nil, or_false] at hc
    simp only [known_weathers, List.mem_cons, List.not_mem_nil, or_false] at hw
    rcases hc with rfl | rfl | rfl | rfl | rfl <;>
      rcases hw with rfl | rfl | rfl <;>
      · simp [calculate_lap_time, tire_compounds, base_pace_of, deg_rate_of,
          spec_weather_penalty] <;> ring_nf
  · intro c' hc'
    simp only [known_compounds, List.mem_cons, List.not_mem_nil, or_false] at hc'
    rcases hc' with rfl | rfl | rfl | rfl | rfl <;>
      constructor <;> norm_num [base_pace_of, tire_compounds]

/-- C2 witness: the lap-time equation instantiated for soft tires of age
3 in the dry with the zero draw source. -/
theorem lap_time_model_spec_witness :
    calculate_lap_time ("soft") 3 ("dry") gen0 0 =
      .ok (90 + base_pace_of ("soft") + (3 : ℚ) * deg_rate_of ("soft")
             + spec_weather_penalty ("soft") ("dry") + gen0.uniform 0, 1) :=
  (lap_time_model_spec ("soft") ("dry") 3 gen0 0 (by decide) (by decide)).1

/-- C3: a successful stint simulation produces one lap time per lap of
`[start_lap, end_lap]`, the k-th lap (from 0) being the lap-time call at
tire age `start_tire_age + k` (the first lap uses the start age exactly),
the total equalling the sum of the returned lap times; and when
`start_lap > end_lap` it returns zero total time and an empty list. -/
theorem stint_spec (s e : ℤ) (c : String) (a : ℤ) (w : String) (g : Gen) (n : ℕ) :
    (∀ (t : ℚ) (l : List ℚ) (n' : ℕ), simulate_stint s e c a w g n = .ok (t, l, n') →
       t = l.sum ∧ l.length = (e + 1 - s).toNat ∧ n' = n + l.length ∧
       ∀ (i : ℕ) (hi : i < l.length),
         calculate_lap_time c (a + i) w g (n + i) = .ok (l[i], (n + i) + 1)) ∧
    (e < s → simulate_stint s e c a w g n = .ok (0, [], n)) := by
  constructor
  · intro t l n' h
    obtain ⟨hsum, hlen, hn, hlap⟩ := stint_loop_spec c w g ((e + 1 - s).toNat) a n t l n' h
    exact ⟨hsum, hlen, by omega, hlap⟩
  · intro hes
    have h0 : (e + 1 - s).toNat = 0 := by omega
    unfold simulate_stint
    rw [h0]
    norm_num [stint_loop]

/-- C3 witness: the stint characterisation applied to the concrete
two-lap soft stint `stint0`, plus the empty-stint case. -/
theorem stint_spec_witness :
    (stint0.1 = stint0.2.1.sum ∧ stint0.2.1.length = ((2 : ℤ) + 1 - 1).toNat) ∧
    simulate_stint 2 1 ("soft") 0 ("dry") gen0 0 = .ok (0, [], 0) := by
  constructor
  · have h := (stint_spec 1 2 ("soft") 0 ("dry") gen0 0).1 stint0.1 stint0.2.1 stint0.2.2
      (by rfl)
    exact ⟨h.1, h.2.1⟩
  · exact (stint_spec 2 1 ("soft") 0 ("dry") gen0 0).2 (by decide)

/-- C1 witness: the total-time invariant instantiated on the concrete
evaluation of the stay-out scenario `scA` on `rp0`. -/
theorem total_time_invariant_witness :
    resA.total_race_time = resA.lap_times.sum +
      (if resA.scenario.pit_lap.getD rp0.current_lap ≤ rp0.total_laps then pit_stop_time else 0)
      - 5 * (resA.redirects : ℚ) :=
  total_time_invariant 1 scA rp0 gen0 0 resA 1 (by rfl)

/-- C5 witness: the position-delta characterisation instantiated on the
concrete evaluation of `scA` on `rp0`. -/
theorem position_delta_spec_witness :
    (resA.position_delta =
      (if 0 < resA.total_race_time - rp0.gap_ahead then 1 else 0)
        - (if rp0.gap_behind - resA.total_race_time < 0 then 1 else 0)) ∧
    resA.final_position = some (rp0.current_position - resA.position_delta) :=
  position_delta_spec 1 scA rp0 gen0 0 resA 1 (by rfl) (by rfl)

/-- C4 witness: the drawn safety-car lap for the concrete firing branch
on `rpB` lies in `(current_lap, total_laps]`. -/
theorem safety_car_branch_spec_witness :
    rpB.current_lap + 1 ≤ safety_car_draw gen0 baseB.2 rpB ∧
    safety_car_draw gen0 baseB.2 rpB ≤ rpB.total_laps :=
  (safety_car_branch_spec 1 scB rpB gen0 0 baseB.2 baseB.1 (by rfl) (by decide) (by decide)
    (by decide)).1 gen0_wf

/-- C8: refuted by the code (code bug) — on the valid final-lap state
`rp8` (`current_lap = total_laps = 5`) with safety-car probability 1, the
safety-car lap draw `random.randint(current_lap + 1, total_laps)` has the
empty range `(5, 5]` and the evaluation raises `ValueError` on a valid
input instead of succeeding. -/
theorem safety_car_draw_raises_at_final_lap :
    valid_request req8 = true ∧
    evaluate_scenario 3 sc8 rp8 gen0 0 = .error .valueError :=
  ⟨by decide, by decide⟩

/-- Python's keyed `min` returns an element of the list it scans. -/
theorem min_by_time_mem : ∀ (xs : List ScenarioResult) (r : ScenarioResult),
    min_by_time r xs ∈ r :: xs := by
  intro xs
  induction xs with
  | nil => intro r; simp [min_by_time]
  | cons x xs ih =>
    intro r
    simp only [min_by_time]
    rcases List.mem_cons.mp (ih (if x.total_race_time < r.total_race_time then x else r)) with
      h | h
    · rw [h]
      split_ifs <;> simp
    · simp [List.mem_cons_of_mem, h]

/-- Python's keyed `min` is a lower bound for the scanned elements. -/
theorem min_by_time_le : ∀ (xs : List ScenarioResult) (r y : ScenarioResult),
    y ∈ r :: xs → (min_by_time r xs).total_race_time ≤ y.total_race_time := by
  intro xs
  induction xs with
  | nil =>
    intro r y hy
    simp at hy
    subst hy
    simp [min_by_time]
  | cons x xs ih =>
    intro r y hy
    simp only [min_by_time]
    have hbase : (min_by_time (if x.total_race_time < r.total_race_time then x else r)
        xs).total_race_time ≤
        (if x.total_race_time < r.total_race_time then x else r).total_race_time :=
      ih _ _ (List.mem_cons_self _ _)
    rcases List.mem_cons.mp hy with rfl | hy' 
    · refine le_trans hbase ?_
      split_ifs with hx
      · exact le_of_lt hx
      · exact le_refl _
    · rcases List.mem_cons.mp hy' with rfl | hy'' 
      · refine le_trans hbase ?_
        split_ifs with hx
        · exact le_refl _
        · exact not_lt.mp hx
      · exact ih _ _ (List.mem_cons_of_mem _ hy'')

/-- Python's keyed `max` returns an element of the list it scans. -/
theorem max_by_time_mem : ∀ (xs : List ScenarioResult) (r : ScenarioResult),
    max_by_time r xs ∈ r :: xs := by
  intro xs
  induction xs with
  | nil => intro r; simp [max_by_time]
  | cons x xs ih =>
    intro r
    simp only [max_by_time]
    rcases List.mem_cons.mp (ih (if r.total_race_time < x.total_race_time then x else r)) with
      h | h
    · rw [h]
      split_ifs <;> simp
    · simp [List.mem_cons_of_mem, h]

/-- Python's keyed `max` is an upper bound for the scanned elements. -/
theorem max_by_time_ge : ∀ (xs : List ScenarioResult) (r y : ScenarioResult),
    y ∈ r :: xs → y.total_race_time ≤ (max_by_time r xs).total_race_time := by
  intro xs
  induction xs with
  | nil =>
    intro r y hy
    simp at hy
    subst hy
    simp [max_by_time]
  | cons x xs ih =>
    intro r y hy
    simp only [max_by_time]
    have hbase : (if r.total_race_time < x.total_race_time then x else r).total_race_time ≤
        (max_by_time (if r.total_race_time < x.total_race_time then x else r)
          xs).total_race_time :=
      ih _ _ (List.mem_cons_self _ _)
    rcases List.mem_cons.mp hy with rfl | hy' 
    · refine le_trans ?_ hbase
      split_ifs with hx
      · exact le_of_lt hx
      · exact le_refl _
    · rcases List.mem_cons.mp hy' with rfl | hy'' 
      · refine le_trans ?_ hbase
        split_ifs with hx
        · exact le_refl _
        · exact not_lt.mp hx
      · exact ih _ _ (List.mem_cons_of_mem _ hy'')

/-- Ranking of a non-empty evaluated list: the best scenario attains the
minimal total race time, the time delta is the maximal minus the minimal
total (hence non-negative), and the reported position delta is the best
scenario's. -/
theorem rank_results_spec (fuel : ℕ) (rp : RaceParams) (scs : List Scenario) (g : Gen)
    (n : ℕ) (res : RankResult) (n' : ℕ)
    (h : rank_results fuel rp scs g n = .ok (res, n')) :
    res.best_scenario ∈ res.scenarios ∧
    (∀ x ∈ res.scenarios, res.best_scenario.total_race_time ≤ x.total_race_time) ∧
    (∃ w, w ∈ res.scenarios ∧ (∀ x ∈ res.scenarios, x.total_race_time ≤ w.total_race_time) ∧
       res.time_delta = w.total_race_time - res.best_scenario.total_race_time) ∧
    0 ≤ res.time_delta ∧
    res.race_position_delta = res.best_scenario.position_delta := by
  unfold rank_results at h
  cases ha : evaluate_all fuel rp g scs n with
  | error e => rw [ha] at h; exact absurd h (by simp)
  | ok p =>
    obtain ⟨rs, n₂⟩ := p
    rw [ha] at h
    cases rs with
    | nil => exact absurd h (by simp)
    | cons r rs =>
      dsimp only at h
      simp only [Except.ok.injEq, Prod.mk.injEq] at h
      obtain ⟨hres, _⟩ := h
      subst hres
      dsimp only
      refine ⟨min_by_time_mem rs r, ?_, ⟨max_by_time r rs, max_by_time_mem rs r, ?_, rfl⟩,
        ?_, rfl⟩
      · intro x hx
        exact min_by_time_le rs r x hx
      · intro x hx
        exact max_by_time_ge rs r x hx
      · have hmm := max_by_time_ge rs r (min_by_time r rs) (min_by_time_mem rs r)
        exact sub_nonneg.mpr hmm

/-- C6: the ranking operation substitutes exactly the four documented
default scenarios when and only when the supplied list is empty, and on
success returns the minimal-total-time result as best, the maximal minus
minimal total as time delta (hence non-negative), and the best result's
position delta. -/
theorem ranking_spec (fuel : ℕ) (rp : RaceParams) (l : List Scenario) (g : Gen) (n : ℕ) :
    (l = [] → simulate_scenarios fuel rp l g n =
       rank_results fuel rp (default_scenarios_spec rp.current_lap rp.total_laps) g n) ∧
    (l ≠ [] → simulate_scenarios fuel rp l g n = rank_results fuel rp l g n) ∧
    ∀ (res : RankResult) (n' : ℕ), simulate_scenarios fuel rp l g n = .ok (res, n') →
      res.best_scenario ∈ res.scenarios ∧
      (∀ x ∈ res.scenarios, res.best_scenario.total_race_time ≤ x.total_race_time) ∧
      (∃ w, w ∈ res.scenarios ∧ (∀ x ∈ res.scenarios, x.total_race_time ≤ w.total_race_time) ∧
         res.time_delta = w.total_race_time - res.best_scenario.total_race_time) ∧
      0 ≤ res.time_delta ∧
      res.race_position_delta = res.best_scenario.position_delta := by
  refine ⟨?_, ?_, ?_⟩
  · intro hl
    subst hl
    rfl
  · intro hl
    cases l with
    | nil => exact absurd rfl hl
    | cons s ls => rfl
  · intro res n' h
    unfold simulate_scenarios at h
    exact rank_results_spec fuel rp _ g n res n' h

/-- C6 witness: the ranking characterisation applied to the concrete
single-scenario ranking `rank0`. -/
theorem ranking_spec_witness :
    0 ≤ rank0.time_delta ∧ rank0.race_position_delta = rank0.best_scenario.position_delta :=
  have h := (ranking_spec 1 rp0 [scA] gen0 0).2.2 rank0 1 (by rfl)
  ⟨h.2.2.2.1, h.2.2.2.2⟩

/-- A known compound is found in the table, so the lap-time model
succeeds. -/
theorem calculate_lap_time_known_ok (c : String) (a : ℤ) (w : String) (g : Gen) (n : ℕ)
    (hc : c ∈ known_compounds) : ∃ t, calculate_lap_time c a w g n = .ok (t, n + 1) := by
  simp only [known_compounds, List.mem_cons, List.not_mem_nil, or_false] at hc
  rcases hc with rfl | rfl | rfl | rfl | rfl <;> exact ⟨_, rfl⟩

/-- The stint loop always succeeds on a known compound. -/
theorem stint_loop_known_ok (c w : String) (g : Gen) (hc : c ∈ known_compounds) :
    ∀ (k : ℕ) (a : ℤ) (n : ℕ), ∃ t l n', stint_loop c w g a k n = .ok (t, l, n') := by
  intro k
  induction k with
  | zero => intro a n; exact ⟨_, _, _, rfl⟩
  | succ k ih =>
    intro a n
    obtain ⟨t, ht⟩ := calculate_lap_time_known_ok c a w g n hc
    obtain ⟨rest, lts, n'', hr⟩ := ih (a + 1) (n + 1)
    refine ⟨t + rest, t :: lts, n'', ?_⟩
    simp only [stint_loop]
    rw [ht]
    dsimp only
    rw [hr]

/-- A stint simulation always succeeds on a known compound. -/
theorem simulate_stint_known_ok (s e : ℤ) (c : String) (a : ℤ) (w : String) (g : Gen)
    (n : ℕ) (hc : c ∈ known_compounds) :
    ∃ t l n', simulate_stint s e c a w g n = .ok (t, l, n') :=
  stint_loop_known_ok c w g hc _ a n

/-- The stint stage succeeds whenever both compounds in play are known. -/
theorem evaluate_stints_known_ok (sc : Scenario) (rp : RaceParams) (g : Gen) (n : ℕ)
    (hc : rp.current_compound ∈ known_compounds)
    (hnew : sc.new_compound.getD ("medium") ∈ known_compounds) :
    ∃ res n₁, evaluate_stints sc rp g n = .ok (res, n₁) := by
  unfold evaluate_stints
  have hfirst : ∃ t1 l1 n1, (if rp.current_lap < sc.pit_lap.getD rp.current_lap then
      simulate_stint rp.current_lap (sc.pit_lap.getD rp.current_lap - 1)
        rp.current_compound rp.current_tire_age rp.weather_condition g n
     else .ok (0.0, [], n)) = .ok (t1, l1, n1) := by
    by_cases hcl : rp.current_lap < sc.pit_lap.getD rp.current_lap
    · rw [if_pos hcl]
      exact simulate_stint_known_ok _ _ _ _ _ g n hc
    · rw [if_neg hcl]
      exact ⟨0.0, [], n, rfl⟩
  obtain ⟨t1, l1, n1, h1⟩ := hfirst
  rw [h1]
  dsimp only
  by_cases hpit : sc.pit_lap.getD rp.current_lap ≤ rp.total_laps
  · rw [if_pos hpit]
    obtain ⟨t2, l2, n2, h2⟩ := simulate_stint_known_ok (sc.pit_lap.getD rp.current_lap)
      rp.total_laps (sc.new_compound.getD ("medium")) 0
      (second_stint_weather sc rp (sc.pit_lap.getD rp.current_lap)) g n1 hnew
    rw [h2]
    exact ⟨_, _, rfl⟩
  · rw [if_neg hpit]
    exact ⟨_, _, rfl⟩

/-- With fuel available, a known-compound scenario with non-positive
safety-car probability evaluates successfully. -/
theorem evaluate_scenario_known_ok (fuel : ℕ) (sc : Scenario) (rp : RaceParams) (g : Gen)
    (n : ℕ) (hfuel : 1 ≤ fuel) (hc : rp.current_compound ∈ known_compounds)
    (hnew : sc.new_compound.getD ("medium") ∈ known_compounds)
    (hp : sc.safety_car_probability.getD 0 ≤ 0) :
    ∃ res n', evaluate_scenario fuel sc rp g n = .ok (res, n') := by
  cases fuel with
  | zero => omega
  | succ fuel =>
    obtain ⟨base, n₁, hb⟩ := evaluate_stints_known_ok sc rp g n hc hnew
    refine ⟨position_step { base with safety_car_appeared := some false } rp, n₁, ?_⟩
    simp only [evaluate_scenario]
    rw [hb]
    dsimp only
    rw [if_neg (not_lt.mpr hp)]

/-- The evaluation loop succeeds on a list of known-compound, no-safety-car
scenarios, producing one result per scenario. -/
theorem evaluate_all_known_ok (fuel : ℕ) (rp : RaceParams) (g : Gen)
    (hfuel : 1 ≤ fuel) (hc : rp.current_compound ∈ known_compounds) :
    ∀ (scs : List Scenario) (n : ℕ),
      (∀ s ∈ scs, s.new_compound.getD ("medium") ∈ known_compounds ∧
        s.safety_car_probability.getD 0 ≤ 0) →
      ∃ rs n', evaluate_all fuel rp g scs n = .ok (rs, n') ∧ rs.length = scs.length := by
  intro scs
  induction scs with
  | nil => intro n _; exact ⟨[], n, rfl, rfl⟩
  | cons s rest ih =>
    intro n hconds
    obtain ⟨hs1, hs2⟩ := hconds s (List.mem_cons_self s rest)
    obtain ⟨res, n1, h1⟩ := evaluate_scenario_known_ok fuel s rp g n hfuel hc hs1 hs2
    obtain ⟨rs, n2, h2, hlen⟩ := ih n1 (fun x hx => hconds x (List.mem_cons_of_mem s hx))
    refine ⟨res :: rs, n2, ?_, by simp [hlen]⟩
    simp only [evaluate_all]
    rw [h1]
    dsimp only
    rw [h2]

/-- The four default scenarios use known compounds and no safety car. -/
theorem default_scenarios_conditions (cl tl : ℤ) :
    ∀ s ∈ default_scenarios cl tl,
      s.new_compound.getD ("medium") ∈ known_compounds ∧
      s.safety_car_probability.getD 0 ≤ 0 := by
  intro s hs
  simp only [default_scenarios, List.mem_cons, List.not_mem_nil, or_false] at hs
  rcases hs with rfl | rfl | rfl | rfl <;> exact ⟨by simp [known_compounds], by simp⟩

/-- Ranking a non-empty list of known-compound, no-safety-car scenarios
succeeds. -/
theorem rank_results_known_ok (fuel : ℕ) (rp : RaceParams) (scs : List Scenario)
    (g : Gen) (n : ℕ) (hfuel : 1 ≤ fuel) (hc : rp.current_compound ∈ known_compounds)
    (hconds : ∀ s ∈ scs, s.new_compound.getD ("medium") ∈ known_compounds ∧
      s.safety_car_probability.getD 0 ≤ 0)
    (hne : scs ≠ []) :
    ∃ r n', rank_results fuel rp scs g n = .ok (r, n') := by
  obtain ⟨rs, n', ha, hlen⟩ := evaluate_all_known_ok fuel rp g hfuel hc scs n hconds
  unfold rank_results
  rw [ha]
  cases rs with
  | nil =>
    cases scs with
    | nil => exact absurd rfl hne
    | cons s rest => exact absurd hlen (by simp)
  | cons r rs' => exact ⟨_, _, rfl⟩

/-- The full ranking call succeeds for any request state with a known
current compound and known-compound, no-safety-car scenarios — no
constraint on laps, position, age or weather is needed. -/
theorem simulate_scenarios_known_ok (fuel : ℕ) (rp : RaceParams) (l : List Scenario)
    (g : Gen) (n : ℕ) (hfuel : 1 ≤ fuel) (hc : rp.current_compound ∈ known_compounds)
    (hsc : ∀ s ∈ l, s.new_compound.getD ("medium") ∈ known_compounds ∧
      s.safety_car_probability.getD 0 ≤ 0) :
    ∃ r n', simulate_scenarios fuel rp l g n = .ok (r, n') := by
  unfold simulate_scenarios
  by_cases hl : l.isEmpty
  · rw [if_pos hl]
    exact rank_results_known_ok fuel rp _ g n hfuel hc
      (default_scenarios_conditions rp.current_lap rp.total_laps)
      (by simp [default_scenarios])
  · rw [if_neg hl]
    refine rank_results_known_ok fuel rp l g n hfuel hc hsc ?_
    intro hcontra
    subst hcontra
    exact hl rfl

/-- C7 (amended): the `/simulate` boundary enforces only the declared
field types; the documented range and membership constraints are not
checked.  Every request whose current compound is known and whose
scenarios use known new compounds with non-positive safety-car
probabilities is accepted and fully simulated — even when it violates the
documented constraints — so no structured validation error is produced
before simulation work begins. -/
theorem boundary_validation_not_enforced (fuel : ℕ) (req : SimulationRequest) (g : Gen)
    (n : ℕ) (hfuel : 1 ≤ fuel)
    (hc : req.current_compound ∈ known_compounds)
    (hsc : ∀ s ∈ req.pit_scenarios, s.new_compound.getD ("medium") ∈ known_compounds ∧
      s.safety_car_probability.getD 0 ≤ 0) :
    ∃ r, simulate_endpoint fuel req g n = .ok r := by
  obtain ⟨r, n', hr⟩ := simulate_scenarios_known_ok fuel (to_race_params req)
    req.pit_scenarios g n hfuel hc hsc
  refine ⟨r, ?_⟩
  unfold simulate_endpoint
  rw [hr]

/-- C7 witness: the amended theorem applied to the constraint-violating
request `req7`. -/
theorem boundary_validation_not_enforced_witness :
    ∃ r, simulate_endpoint 1 req7 gen0 0 = .ok r :=
  boundary_validation_not_enforced 1 req7 gen0 0 (by decide) (by decide) (by decide)

/-- C7 counterexample: the request `req7` violates the boundary
constraints (`current_position = 0`) yet is not rejected with a
validation error — the endpoint runs the simulation and returns the
normal result `rank7`. -/
theorem boundary_validation_counterexample :
    valid_request req7 = false ∧ simulate_endpoint 1 req7 gen0 0 = .ok rank7 :=
  ⟨by decide, by rfl⟩
